import Mathlib

/-!
Verification of the deterministic mastery-context engine
(`backend/dist/MCP/mastery_context_builder.py`).

Dates are modelled as day ordinals (`Int`, days since 0000-03-01 in the
proleptic Gregorian calendar), so that subtracting two dates gives the day
count exactly as Python's `(d1 - d2).days` does for date values.
Mastery scores and weights are modelled as `ℚ`.
-/

namespace MasteryContext

/-- A raw date-ish value as it arrives from the database layer:
absent (`null`), an already-native date value (`dt`, carrying its day
ordinal), or a string to be parsed.  Python values that are neither are
passed through `str()` and then parsed, so they behave like the `str` case. -/
inductive RawDate where
  | null : RawDate
  | dt : Int → RawDate
  | str : String → RawDate
deriving DecidableEq, Repr

/-- Leap-year test of the Gregorian calendar. -/
def isLeap (y : Nat) : Bool :=
  y % 4 = 0 && (y % 100 != 0 || y % 400 = 0)

/-- Number of days in month `m` of year `y`. -/
def daysInMonth (y m : Nat) : Nat :=
  if m = 2 then (if isLeap y then 29 else 28)
  else if m = 4 ∨ m = 6 ∨ m = 9 ∨ m = 11 then 30
  else 31

/-- Day ordinal of the civil date `y-m-d` (days since 0000-03-01),
via the standard days-from-civil computation.  Only used for `y ≥ 1`. -/
def toOrdinal (y m d : Nat) : Int :=
  let y' := if m ≤ 2 then y - 1 else y
  let era := y' / 400
  let yoe := y' % 400
  let mp := if m ≤ 2 then m + 9 else m - 3
  let doy := (153 * mp + 2) / 5 + (d - 1)
  let doe := yoe * 365 + yoe / 4 - yoe / 100 + doy
  ((era * 146097 + doe : Nat) : Int)

/-- Numeric value of a decimal digit character, `none` otherwise. -/
def digitVal (c : Char) : Option Nat :=
  if c.isDigit then some (c.toNat - 48) else none

/-- `str.replace('Z', '+00:00')` on the character list: every `'Z'` is
replaced by the six characters `"+00:00"`. -/
def replaceZ : List Char → List Char
  | [] => []
  | c :: cs =>
    if c = 'Z' then '+' :: '0' :: '0' :: ':' :: '0' :: '0' :: replaceZ cs
    else c :: replaceZ cs

/-- Model of `datetime.fromisoformat` restricted to the date-only ISO-8601
shape `YYYY-MM-DD` used by this system's records: any other string is
rejected (`none`), matching the `ValueError` branch of the source's
`try/except`.  Validates month and day ranges and requires year ≥ 1,
as Python's `datetime` does. -/
def fromisoChars (cs : List Char) : Option Int :=
  match cs with
  | [y1, y2, y3, y4, h1, mo1, mo2, h2, d1, d2] =>
    if h1 = '-' ∧ h2 = '-' then
      match digitVal y1, digitVal y2, digitVal y3, digitVal y4,
            digitVal mo1, digitVal mo2, digitVal d1, digitVal d2 with
      | some a, some b, some c, some e, some f, some g, some h, some i =>
        let y := 1000 * a + 100 * b + 10 * c + e
        let m := 10 * f + g
        let d := 10 * h + i
        if 1 ≤ y ∧ 1 ≤ m ∧ m ≤ 12 ∧ 1 ≤ d ∧ d ≤ daysInMonth y m then
          some (toOrdinal y m d)
        else none
      | _, _, _, _, _, _, _, _ => none
    else none
  | _ => none

/-- `datetime.fromisoformat` on a string value. -/
def fromisoformat (s : String) : Option Int :=
  fromisoChars s.toList

/-- `MasteryContextBuilder._parse_date`: `None`/falsy values give `None`
(for strings, the empty string is the falsy case), native date values pass
through, other strings have every `Z` rewritten to `+00:00` and are then
parsed, any failure giving `None`. -/
def parseDate : RawDate → Option Int
  | RawDate.null => none
  | RawDate.dt d => some d
  | RawDate.str s => if s = "" then none else fromisoChars (replaceZ s.toList)

/-- Round-half-to-even to an integer, the rounding used by Python's
builtin `round`. -/
def rhe (q : ℚ) : Int :=
  let f := ⌊q⌋
  let r := q - (f : ℚ)
  if r < 1 / 2 then f
  else if 1 / 2 < r then f + 1
  else if 2 ∣ f then f else f + 1

/-- Python's `round(x, 2)`. -/
def round2 (q : ℚ) : ℚ := (rhe (100 * q) : ℚ) / 100

/-! ## Input records (raw database rows) -/

/-- Raw course record (`courses_data` row). -/
structure CourseRec where
  id : Int
  name : String
  code : Option String
  semester_start : RawDate
  semester_end : RawDate
deriving DecidableEq, Repr

/-- Raw topic record (`topics_data` row). -/
structure TopicRec where
  id : Int
  course_id : Option Int
  name : String
deriving DecidableEq, Repr

/-- Raw mastery record (`mastery_data` row); optional fields model absent
dictionary keys. -/
structure MasteryRec where
  topic_id : Int
  mastery_score : Option ℚ
  last_updated : RawDate
deriving DecidableEq, Repr

/-- Raw assignment record (`assignments_data` row). -/
structure AssignmentRec where
  topic_id : Option Int
  due_date : RawDate
  weight : Option ℚ
  type : Option String
  name : Option String
deriving DecidableEq, Repr

/-- Raw quiz record (`quizzes_data` row). -/
structure QuizRec where
  topic_id : Option Int
  scheduled_date : RawDate
  weight : Option ℚ
  name : Option String
deriving DecidableEq, Repr

/-- Raw event record (`events_data` row). -/
structure EventRec where
  topic_id : Option Int
  due_date : RawDate
  weight : Option ℚ
  type : Option String
  name : Option String
deriving DecidableEq, Repr

/-! ## Derived structures -/

/-- The resolved next-assessment dictionary built by `_find_next_assessment`. -/
structure Assessment where
  type : String
  name : String
  date : Int
  days_until : Int
  weight : ℚ
deriving DecidableEq, Repr

/-- The four urgency levels returned by `_compute_topic_urgency`
(returned as strings in the source; modelled as an enumeration, with
`critical`/`high`/`medium`/`low` the respective string values). -/
inductive Urgency where
  | critical | high | medium | low
deriving DecidableEq, Repr

/-- The per-topic context dictionary assembled in `_build_course_context`. -/
structure TopicContext where
  topic_id : Int
  topic_name : String
  mastery_score : ℚ
  mastery_level : String
  last_updated : RawDate
  next_assessment : Option Assessment
  urgency : Urgency
  recommended_action : String
deriving DecidableEq, Repr

/-- The per-course context dictionary returned by `_build_course_context`. -/
structure CourseContext where
  course_id : Int
  course_name : String
  course_code : String
  semester_progress : ℚ
  topics : List TopicContext
  risk_level : String
  average_mastery : ℚ
deriving DecidableEq, Repr

/-- The summary-statistics dictionary returned by `_compute_summary_stats`.
The `high_urgency_topics` key is absent (`none`) in the
source's no-topics branch, hence the `Option`. -/
structure SummaryStats where
  total_topics : Nat
  average_mastery : ℚ
  topics_needing_attention : Nat
  critical_topics : Nat
  high_urgency_topics : Option Nat
deriving DecidableEq, Repr

/-! ## Engine functions -/

/-- `_compute_course_progress`: fraction of the semester elapsed, clamped
to `[0, 1]` and rounded to two decimals, `0.5` when either date is missing
or the span is non-positive. -/
def computeCourseProgress (current_date : Int)
    (semester_start semester_end : Option Int) : ℚ :=
  match semester_start, semester_end with
  | some s, some e =>
    let total_days := e - s
    if total_days ≤ 0 then 1 / 2
    else
      let elapsed_days := current_date - s
      round2 (max 0 (min 1 ((elapsed_days : ℚ) / (total_days : ℚ))))
  | _, _ => 1 / 2

/-- The assignment branch of `_find_next_assessment`: the candidate
assessment contributed by one assignment row, if any. -/
def assignmentCandidate (current_date : Int) (topic_id : Int)
    (a : AssignmentRec) : Option Assessment :=
  if a.topic_id = some topic_id then
    match parseDate a.due_date with
    | some due_date =>
      if due_date ≥ current_date then
        some { type := a.type.getD "assignment"
               name := a.name.getD "Assignment"
               date := due_date
               days_until := due_date - current_date
               weight := a.weight.getD 0 }
      else none
    | none => none
  else none

/-- The quiz branch of `_find_next_assessment`. -/
def quizCandidate (current_date : Int) (topic_id : Int)
    (q : QuizRec) : Option Assessment :=
  if q.topic_id = some topic_id then
    match parseDate q.scheduled_date with
    | some quiz_date =>
      if quiz_date ≥ current_date then
        some { type := "quiz"
               name := q.name.getD "Quiz"
               date := quiz_date
               days_until := quiz_date - current_date
               weight := q.weight.getD 10 }
      else none
    | none => none
  else none

/-- The event branch of `_find_next_assessment`. -/
def eventCandidate (current_date : Int) (topic_id : Int)
    (e : EventRec) : Option Assessment :=
  if e.topic_id = some topic_id then
    match parseDate e.due_date with
    | some event_date =>
      if event_date ≥ current_date then
        some { type := e.type.getD "event"
               name := e.name.getD "Event"
               date := event_date
               days_until := event_date - current_date
               weight := e.weight.getD 0 }
      else none
    | none => none
  else none

/-- The `upcoming_assessments` list of `_find_next_assessment`: all
matching assignments in input order, then all matching quizzes, then all
matching events. -/
def upcomingAssessments (current_date : Int) (topic_id : Int)
    (assignments : List AssignmentRec) (quizzes : List QuizRec)
    (events : List EventRec) : List Assessment :=
  assignments.filterMap (assignmentCandidate current_date topic_id)
    ++ quizzes.filterMap (quizCandidate current_date topic_id)
    ++ events.filterMap (eventCandidate current_date topic_id)

/-- Python's `min(l, key=k)` over a non-empty list: keeps the current
minimum and replaces it only on a strictly smaller key, so the first
minimal element wins. -/
def pyMinBy {α : Type} (key : α → Int) : List α → Option α
  | [] => none
  | x :: xs => some (xs.foldl (fun best y => if key y < key best then y else best) x)

/-- `_find_next_assessment`: soonest upcoming assessment for the topic. -/
def findNextAssessment (current_date : Int) (topic_id : Int)
    (assignments : List AssignmentRec) (quizzes : List QuizRec)
    (events : List EventRec) : Option Assessment :=
  pyMinBy (fun x => x.days_until)
    (upcomingAssessments current_date topic_id assignments quizzes events)

/-- `_compute_topic_urgency`: the ordered decision table mapping
`(mastery_score, next_assessment)` to an urgency level. -/
def computeTopicUrgency (mastery_score : ℚ)
    (next_assessment : Option Assessment) : Urgency :=
  match next_assessment with
  | none => if mastery_score < 1 / 2 then Urgency.medium else Urgency.low
  | some a =>
    if mastery_score < 1 / 2 ∧ a.days_until ≤ 3 ∧ a.weight ≥ 15 then
      Urgency.critical
    else if (mastery_score < 1 / 2 ∧ a.days_until ≤ 7)
        ∨ (a.days_until ≤ 5 ∧ a.weight ≥ 20) then
      Urgency.high
    else if mastery_score < 7 / 10 ∧ a.days_until ≤ 10 then
      Urgency.medium
    else
      Urgency.low

/-- `_recommend_topic_action`. -/
def recommendTopicAction (mastery_score : ℚ) (urgency : Urgency) : String :=
  match urgency with
  | Urgency.critical => "urgent_reinforcement"
  | Urgency.high =>
    if mastery_score < 2 / 5 then "foundational_review" else "active_recall_practice"
  | Urgency.medium =>
    if mastery_score < 3 / 5 then "spaced_practice" else "refinement"
  | Urgency.low =>
    if mastery_score < 7 / 10 then "gradual_improvement" else "maintain_and_advance"

/-- `_mastery_to_level`. -/
def masteryToLevel (score : ℚ) : String :=
  if score ≥ 9 / 10 then "expert"
  else if score ≥ 3 / 4 then "proficient"
  else if score ≥ 3 / 5 then "developing"
  else if score ≥ 2 / 5 then "emerging"
  else "foundational"

/-- `_compute_average_mastery`. -/
def computeAverageMastery (topics_context : List TopicContext) : ℚ :=
  if topics_context.isEmpty then 0
  else round2 ((topics_context.map (fun t => t.mastery_score)).sum
      / (topics_context.length : ℚ))

/-- `_compute_course_risk`: the ordered course-risk decision table. -/
def computeCourseRisk (topics_context : List TopicContext)
    (course_progress : ℚ) : String :=
  let critical_count := topics_context.countP (fun t => t.urgency = Urgency.critical)
  let high_count := topics_context.countP (fun t => t.urgency = Urgency.high)
  let avg_mastery := computeAverageMastery topics_context
  if course_progress > 7 / 10 ∧ avg_mastery < 1 / 2 ∧ critical_count > 0 then "high"
  else if critical_count > 0 ∨ (high_count ≥ 2 ∧ avg_mastery < 3 / 5) then "elevated"
  else if high_count > 0 ∨ avg_mastery < 7 / 10 then "moderate"
  else "low"

/-- The `{m['topic_id']: m for m in mastery_data}` dictionary lookup:
the last record with the given `topic_id` wins. -/
def masteryLookup (mastery_data : List MasteryRec) (topic_id : Int) :
    Option MasteryRec :=
  mastery_data.foldl (fun acc m => if m.topic_id = topic_id then some m else acc) none

/-- The per-topic body of the loop in `_build_course_context`. -/
def buildTopicContext (current_date : Int) (mastery_data : List MasteryRec)
    (assignments : List AssignmentRec) (quizzes : List QuizRec)
    (events : List EventRec) (topic : TopicRec) : TopicContext :=
  let mastery_record := masteryLookup mastery_data topic.id
  let mastery_score := (mastery_record.bind (fun m => m.mastery_score)).getD 0
  let next_assessment :=
    findNextAssessment current_date topic.id assignments quizzes events
  let urgency := computeTopicUrgency mastery_score next_assessment
  { topic_id := topic.id
    topic_name := topic.name
    mastery_score := mastery_score
    mastery_level := masteryToLevel mastery_score
    last_updated := (mastery_record.map (fun m => m.last_updated)).getD RawDate.null
    next_assessment := next_assessment
    urgency := urgency
    recommended_action := recommendTopicAction mastery_score urgency }

/-- `_build_course_context`. -/
def buildCourseContext (current_date : Int) (course : CourseRec)
    (topics : List TopicRec) (mastery_data : List MasteryRec)
    (assignments : List AssignmentRec) (quizzes : List QuizRec)
    (events : List EventRec) : CourseContext :=
  let semester_start := parseDate course.semester_start
  let semester_end := parseDate course.semester_end
  let course_progress := computeCourseProgress current_date semester_start semester_end
  let topics_context :=
    topics.map (buildTopicContext current_date mastery_data assignments quizzes events)
  { course_id := course.id
    course_name := course.name
    course_code := course.code.getD "N/A"
    semester_progress := course_progress
    topics := topics_context
    risk_level := computeCourseRisk topics_context course_progress
    average_mastery := computeAverageMastery topics_context }

/-- `_compute_summary_stats`: aggregate statistics over all topics of all
courses.  In the source's no-topics branch the returned dictionary lacks
the `high_urgency_topics` key, modelled here as `none`. -/
def computeSummaryStats (courses_context : List CourseContext) : SummaryStats :=
  let all_topics := courses_context.flatMap (fun c => c.topics)
  if all_topics.isEmpty then
    { total_topics := 0
      average_mastery := 0
      topics_needing_attention := 0
      critical_topics := 0
      high_urgency_topics := none }
  else
    { total_topics := all_topics.length
      average_mastery :=
        round2 ((all_topics.map (fun t => t.mastery_score)).sum
          / (all_topics.length : ℚ))
      topics_needing_attention := all_topics.countP (fun t => t.mastery_score < 7 / 10)
      critical_topics := all_topics.countP (fun t => t.urgency = Urgency.critical)
      high_urgency_topics :=
        some (all_topics.countP
          (fun t => t.urgency = Urgency.critical ∨ t.urgency = Urgency.high)) }

/-- The four cross-cutting boolean flags returned by `_detect_risk_flags`. -/
structure RiskFlags where
  low_mastery_high_weight : Bool
  deadline_pressure : Bool
  stagnant_mastery : Bool
  late_semester_low_mastery : Bool
deriving DecidableEq, Repr

/-- Python truthiness of a raw date value, as tested by
`t.get('last_updated')`: `None` and the empty string are falsy, any other
string and any native date value are truthy. -/
def rawTruthy : RawDate → Bool
  | RawDate.null => false
  | RawDate.dt _ => true
  | RawDate.str s => if s = "" then false else true

/-- The stagnant-mastery `any(...)` of `_detect_risk_flags`.  Python's
`any` consumes the generator lazily, returning `True` at the first
stagnant topic.  For a topic whose `last_updated` is truthy (it passes
the generator's `if` filter and the repeated `and` guard) but fails to
parse, the source evaluates `self._parse_date(t['last_updated']).date()`
with `_parse_date` returning `None`, so `.date()` raises
`AttributeError`; that raise is modelled as `none`. -/
def stagnantMastery (current_date : Int) : List TopicContext → Option Bool
  | [] => some false
  | t :: ts =>
    if rawTruthy t.last_updated then
      match parseDate t.last_updated with
      | none => none
      | some d =>
        if current_date - d > 14 then some true
        else stagnantMastery current_date ts
    else stagnantMastery current_date ts

/-- `_detect_risk_flags`: the three total flags plus the stagnation flag;
`none` models the `AttributeError` escaping from the stagnation check. -/
def detectRiskFlags (current_date : Int)
    (courses_context : List CourseContext) : Option RiskFlags :=
  let all_topics := courses_context.flatMap (fun c => c.topics)
  let low_mastery_high_weight := all_topics.any (fun t =>
    match t.next_assessment with
    | some na =>
      decide (t.mastery_score < 1 / 2) && decide (na.days_until ≤ 7) &&
        decide (na.weight ≥ 15)
    | none => false)
  let upcoming_assessments := all_topics.filter (fun t =>
    match t.next_assessment with
    | some na => decide (na.days_until ≤ 7)
    | none => false)
  let deadline_pressure := decide (upcoming_assessments.length ≥ 3)
  let overall_progress : ℚ :=
    if courses_context.isEmpty then 0
    else (courses_context.map (fun c => c.semester_progress)).sum
      / (courses_context.length : ℚ)
  let overall_mastery : ℚ :=
    if courses_context.isEmpty then 0
    else (courses_context.map (fun c => c.average_mastery)).sum
      / (courses_context.length : ℚ)
  let late_semester_low_mastery :=
    decide (overall_progress > 7 / 10) && decide (overall_mastery < 3 / 5)
  match stagnantMastery current_date all_topics with
  | none => none
  | some stagnant =>
    some { low_mastery_high_weight := low_mastery_high_weight
           deadline_pressure := deadline_pressure
           stagnant_mastery := stagnant
           late_semester_low_mastery := late_semester_low_mastery }

/-- Severity rank of an urgency level, for stating monotonicity:
`critical > high > medium > low`. -/
def sevRank : Urgency → Nat
  | Urgency.critical => 3
  | Urgency.high => 2
  | Urgency.medium => 1
  | Urgency.low => 0

/-! ## Theorems -/

/-- C1: the urgency classifier is exactly the spec's ordered decision
table, evaluated top-down with first match winning, both with and without
an upcoming assessment; and Scenario A (`mastery_score = 0.3`, assessment
in 2 days with weight 20) yields urgency `critical` with recommended
action `urgent_reinforcement`. -/
theorem urgency_table_matches_spec :
    (∀ (m : ℚ) (a : Assessment),
      (computeTopicUrgency m (some a) = Urgency.critical ↔
        (m < 1 / 2 ∧ a.days_until ≤ 3 ∧ 15 ≤ a.weight)) ∧
      (computeTopicUrgency m (some a) = Urgency.high ↔
        (¬(m < 1 / 2 ∧ a.days_until ≤ 3 ∧ 15 ≤ a.weight) ∧
          ((m < 1 / 2 ∧ a.days_until ≤ 7) ∨ (a.days_until ≤ 5 ∧ 20 ≤ a.weight)))) ∧
      (computeTopicUrgency m (some a) = Urgency.medium ↔
        (¬(m < 1 / 2 ∧ a.days_until ≤ 3 ∧ 15 ≤ a.weight) ∧
          ¬((m < 1 / 2 ∧ a.days_until ≤ 7) ∨ (a.days_until ≤ 5 ∧ 20 ≤ a.weight)) ∧
          (m < 7 / 10 ∧ a.days_until ≤ 10))) ∧
      (computeTopicUrgency m (some a) = Urgency.low ↔
        (¬(m < 1 / 2 ∧ a.days_until ≤ 3 ∧ 15 ≤ a.weight) ∧
          ¬((m < 1 / 2 ∧ a.days_until ≤ 7) ∨ (a.days_until ≤ 5 ∧ 20 ≤ a.weight)) ∧
          ¬(m < 7 / 10 ∧ a.days_until ≤ 10)))) ∧
    (∀ m : ℚ,
      (computeTopicUrgency m none = Urgency.medium ↔ m < 1 / 2) ∧
      (computeTopicUrgency m none = Urgency.low ↔ ¬(m < 1 / 2))) ∧
    ((buildTopicContext (toOrdinal 2026 3 13)
        [{ topic_id := 1, mastery_score := some (3 / 10), last_updated := RawDate.null }]
        [{ topic_id := some 1, due_date := RawDate.str "2026-03-15",
           weight := some 20, type := none, name := none }] [] []
        { id := 1, course_id := some 1, name := "T" }).urgency = Urgency.critical ∧
      (buildTopicContext (toOrdinal 2026 3 13)
        [{ topic_id := 1, mastery_score := some (3 / 10), last_updated := RawDate.null }]
        [{ topic_id := some 1, due_date := RawDate.str "2026-03-15",
           weight := some 20, type := none, name := none }] [] []
        { id := 1, course_id := some 1, name := "T" }).recommended_action
          = "urgent_reinforcement") := by
  refine ⟨fun m a => ?_, fun m => ?_, by with_unfolding_all decide⟩
  · simp only [computeTopicUrgency]
    split_ifs with h1 h2 h3
    · exact ⟨iff_of_true rfl h1,
        iff_of_false (by decide) (fun hc => hc.1 h1),
        iff_of_false (by decide) (fun hc => hc.1 h1),
        iff_of_false (by decide) (fun hc => hc.1 h1)⟩
    · exact ⟨iff_of_false (by decide) h1,
        iff_of_true rfl ⟨h1, h2⟩,
        iff_of_false (by decide) (fun hc => hc.2.1 h2),
        iff_of_false (by decide) (fun hc => hc.2.1 h2)⟩
    · exact ⟨iff_of_false (by decide) h1,
        iff_of_false (by decide) (fun hc => h2 hc.2),
        iff_of_true rfl ⟨h1, h2, h3⟩,
        iff_of_false (by decide) (fun hc => hc.2.2 h3)⟩
    · exact ⟨iff_of_false (by decide) h1,
        iff_of_false (by decide) (fun hc => h2 hc.2),
        iff_of_false (by decide) (fun hc => h3 hc.2.2),
        iff_of_true rfl ⟨h1, h2, h3⟩⟩
  · simp only [computeTopicUrgency]
    split_ifs with h
    · exact ⟨iff_of_true rfl h, iff_of_false (by decide) (fun hn => hn h)⟩
    · exact ⟨iff_of_false (by decide) h, iff_of_true rfl h⟩

/-- If a topic is classified `critical`, the critical row's condition held. -/
lemma cond_of_urgency_critical (m : ℚ) (a : Assessment)
    (h : computeTopicUrgency m (some a) = Urgency.critical) :
    m < 1 / 2 ∧ a.days_until ≤ 3 ∧ a.weight ≥ 15 := by
  simp only [computeTopicUrgency] at h
  split_ifs at h with h1 h2 h3
  exact h1

/-- If a topic is classified `high`, the high row's condition held. -/
lemma cond_of_urgency_high (m : ℚ) (a : Assessment)
    (h : computeTopicUrgency m (some a) = Urgency.high) :
    (m < 1 / 2 ∧ a.days_until ≤ 7) ∨ (a.days_until ≤ 5 ∧ a.weight ≥ 20) := by
  simp only [computeTopicUrgency] at h
  split_ifs at h with h1 h2 h3
  exact h2

/-- If a topic is classified `medium` (with an assessment), the medium
row's condition held. -/
lemma cond_of_urgency_medium (m : ℚ) (a : Assessment)
    (h : computeTopicUrgency m (some a) = Urgency.medium) :
    m < 7 / 10 ∧ a.days_until ≤ 10 := by
  simp only [computeTopicUrgency] at h
  split_ifs at h with h1 h2 h3
  exact h3

/-- The medium row's condition guarantees severity at least `medium`. -/
lemma sevRank_one_le_of_cond (m : ℚ) (a : Assessment)
    (h : m < 7 / 10 ∧ a.days_until ≤ 10) :
    1 ≤ sevRank (computeTopicUrgency m (some a)) := by
  simp only [computeTopicUrgency]
  split_ifs with h1 h2
  · decide
  · decide
  · decide

/-- The high row's condition guarantees severity at least `high`. -/
lemma sevRank_two_le_of_cond (m : ℚ) (a : Assessment)
    (h : (m < 1 / 2 ∧ a.days_until ≤ 7) ∨ (a.days_until ≤ 5 ∧ a.weight ≥ 20)) :
    2 ≤ sevRank (computeTopicUrgency m (some a)) := by
  simp only [computeTopicUrgency]
  split_ifs with h1
  · decide
  · decide

/-- The critical row's condition forces classification `critical`. -/
lemma sevRank_eq_three_of_cond (m : ℚ) (a : Assessment)
    (h : m < 1 / 2 ∧ a.days_until ≤ 3 ∧ a.weight ≥ 15) :
    sevRank (computeTopicUrgency m (some a)) = 3 := by
  simp only [computeTopicUrgency]
  split_ifs
  rfl

/-- C7: with the next assessment fixed (or fixed to be absent), a lower
mastery score is classified at least as severe as a higher one, in the
severity order `critical > high > medium > low`. -/
theorem urgency_monotone_in_mastery
    (a : Option Assessment) (m1 m2 : ℚ) (h : m1 ≤ m2) :
    sevRank (computeTopicUrgency m2 a) ≤ sevRank (computeTopicUrgency m1 a) := by
  cases a with
  | none =>
    simp only [computeTopicUrgency]
    split_ifs with ha hb
    · exact le_refl _
    · exact absurd (lt_of_le_of_lt h ha) hb
    · decide
    · exact le_refl _
  | some a =>
    cases hu : computeTopicUrgency m2 (some a) with
    | critical =>
      have hc := cond_of_urgency_critical m2 a hu
      rw [sevRank_eq_three_of_cond m1 a ⟨lt_of_le_of_lt h hc.1, hc.2⟩]
      decide
    | high =>
      exact sevRank_two_le_of_cond m1 a
        ((cond_of_urgency_high m2 a hu).imp
          (fun hx => ⟨lt_of_le_of_lt h hx.1, hx.2⟩) id)
    | medium =>
      have hc := cond_of_urgency_medium m2 a hu
      exact sevRank_one_le_of_cond m1 a ⟨lt_of_le_of_lt h hc.1, hc.2⟩
    | low => exact Nat.zero_le _

/-- Witness for C7 at mastery scores `0.3 ≤ 0.8` and a fixed assessment. -/
theorem urgency_monotone_in_mastery_witness :
    sevRank (computeTopicUrgency (4 / 5) (some ⟨"quiz", "Q", 2, 2, 20⟩))
      ≤ sevRank (computeTopicUrgency (3 / 10) (some ⟨"quiz", "Q", 2, 2, 20⟩)) :=
  urgency_monotone_in_mastery (some ⟨"quiz", "Q", 2, 2, 20⟩) (3 / 10) (4 / 5)
    (by norm_num)

/-- C2 counterexample: an out-of-range input mastery score (1.5) is
carried into the topic context unchanged, so the produced context violates
`mastery_score ≤ 1.0` — the builder clamps nothing. -/
theorem mastery_not_clamped_cex :
    (buildTopicContext 0
      [{ topic_id := 1, mastery_score := some (3 / 2), last_updated := RawDate.null }]
      [] [] [] { id := 1, course_id := some 1, name := "T" }).mastery_score = 3 / 2 ∧
    ¬((buildTopicContext 0
      [{ topic_id := 1, mastery_score := some (3 / 2), last_updated := RawDate.null }]
      [] [] [] { id := 1, course_id := some 1, name := "T" }).mastery_score ≤ 1) := by
  with_unfolding_all decide

/-- C2 (amended): the mastery score carried into a TopicContext is the
looked-up record's score passed through unchanged — not clamped and not
rejected (and 0.0 only as the default for an absent record/field). -/
theorem mastery_passthrough (current_date : Int) (mastery_data : List MasteryRec)
    (assignments : List AssignmentRec) (quizzes : List QuizRec)
    (events : List EventRec) (topic : TopicRec) (m : MasteryRec) (s : ℚ)
    (hm : masteryLookup mastery_data topic.id = some m)
    (hs : m.mastery_score = some s) :
    (buildTopicContext current_date mastery_data assignments quizzes events
        topic).mastery_score = s := by
  have hb : (buildTopicContext current_date mastery_data assignments quizzes events
      topic).mastery_score
      = ((masteryLookup mastery_data topic.id).bind
          (fun r => r.mastery_score)).getD 0 := rfl
  rw [hb, hm]
  simp [hs]

/-- Witness for C2 (amended) at an out-of-range score of 1.5. -/
theorem mastery_passthrough_witness :
    (buildTopicContext 0
      [{ topic_id := 1, mastery_score := some (3 / 2), last_updated := RawDate.null }]
      [] [] [] { id := 1, course_id := some 1, name := "T" }).mastery_score = 3 / 2 :=
  mastery_passthrough 0
    [{ topic_id := 1, mastery_score := some (3 / 2), last_updated := RawDate.null }]
    [] [] [] { id := 1, course_id := some 1, name := "T" }
    { topic_id := 1, mastery_score := some (3 / 2), last_updated := RawDate.null }
    (3 / 2) rfl rfl

/-- C3 counterexample: a course with zero topics is assigned risk_level
`"moderate"` (its average mastery 0.0 falls below the 0.7 moderate
threshold), not `"low"` as claimed. -/
theorem no_topics_risk_cex :
    (buildCourseContext 0
      { id := 1, name := "C", code := none, semester_start := RawDate.null,
        semester_end := RawDate.null } [] [] [] [] []).risk_level = "moderate" ∧
    (buildCourseContext 0
      { id := 1, name := "C", code := none, semester_start := RawDate.null,
        semester_end := RawDate.null } [] [] [] [] []).risk_level ≠ "low" := by
  with_unfolding_all decide

/-- C3 (amended): for every course whose topic list is empty, the produced
CourseContext has average_mastery = 0.0 and risk_level = "moderate". -/
theorem no_topics_course_defaults (current_date : Int) (course : CourseRec)
    (mastery_data : List MasteryRec) (assignments : List AssignmentRec)
    (quizzes : List QuizRec) (events : List EventRec) :
    (buildCourseContext current_date course [] mastery_data assignments quizzes
        events).average_mastery = 0 ∧
    (buildCourseContext current_date course [] mastery_data assignments quizzes
        events).risk_level = "moderate" := by
  have havg : (buildCourseContext current_date course [] mastery_data assignments
      quizzes events).average_mastery = computeAverageMastery [] := rfl
  have hrisk : (buildCourseContext current_date course [] mastery_data assignments
      quizzes events).risk_level
      = computeCourseRisk []
          (computeCourseProgress current_date (parseDate course.semester_start)
            (parseDate course.semester_end)) := rfl
  refine ⟨by rw [havg]; rfl, ?_⟩
  rw [hrisk]
  simp only [computeCourseRisk, computeAverageMastery, List.countP_nil]
  norm_num

/-- With both dates present and a positive span, course progress is the
clamped, rounded elapsed fraction. -/
lemma computeCourseProgress_pos (cur s e : Int) (hlt : s < e) :
    computeCourseProgress cur (some s) (some e)
      = round2 (max 0 (min 1 (((cur - s : Int) : ℚ) / ((e - s : Int) : ℚ)))) := by
  simp only [computeCourseProgress]
  rw [if_neg (by omega)]

/-- C4: for every course, temporal progress equals
`round2 (clamp ((current − start) / (end − start)) 0 1)` when both
semester dates parse and `start < end`, equals exactly `0.5` when the span
is non-positive or either date is missing, and Scenario C
(start 2026-01-13, end 2026-05-08, current 2026-03-13) yields `0.51`. -/
theorem course_progress_spec :
    (∀ (current_date : Int) (course : CourseRec) (topics : List TopicRec)
        (mastery_data : List MasteryRec) (assignments : List AssignmentRec)
        (quizzes : List QuizRec) (events : List EventRec) (s e : Int),
      parseDate course.semester_start = some s →
      parseDate course.semester_end = some e →
      s < e →
      (buildCourseContext current_date course topics mastery_data assignments
          quizzes events).semester_progress
        = round2 (max 0 (min 1 (((current_date - s : Int) : ℚ)
            / ((e - s : Int) : ℚ))))) ∧
    (∀ (current_date : Int) (course : CourseRec) (topics : List TopicRec)
        (mastery_data : List MasteryRec) (assignments : List AssignmentRec)
        (quizzes : List QuizRec) (events : List EventRec) (s e : Int),
      parseDate course.semester_start = some s →
      parseDate course.semester_end = some e →
      e ≤ s →
      (buildCourseContext current_date course topics mastery_data assignments
          quizzes events).semester_progress = 1 / 2) ∧
    (∀ (current_date : Int) (course : CourseRec) (topics : List TopicRec)
        (mastery_data : List MasteryRec) (assignments : List AssignmentRec)
        (quizzes : List QuizRec) (events : List EventRec),
      parseDate course.semester_start = none ∨ parseDate course.semester_end = none →
      (buildCourseContext current_date course topics mastery_data assignments
          quizzes events).semester_progress = 1 / 2) ∧
    (buildCourseContext (toOrdinal 2026 3 13)
      { id := 1, name := "C", code := none,
        semester_start := RawDate.str "2026-01-13",
        semester_end := RawDate.str "2026-05-08" } [] [] [] [] []).semester_progress
      = 51 / 100 := by
  have hb : ∀ (current_date : Int) (course : CourseRec) (topics : List TopicRec)
      (mastery_data : List MasteryRec) (assignments : List AssignmentRec)
      (quizzes : List QuizRec) (events : List EventRec),
      (buildCourseContext current_date course topics mastery_data assignments
          quizzes events).semester_progress
        = computeCourseProgress current_date (parseDate course.semester_start)
            (parseDate course.semester_end) :=
    fun _ _ _ _ _ _ _ => rfl
  refine ⟨?_, ?_, ?_, by with_unfolding_all decide⟩
  · intro cur course topics md asg qz ev s e hs he hlt
    rw [hb, hs, he, computeCourseProgress_pos cur s e hlt]
  · intro cur course topics md asg qz ev s e hs he hle
    rw [hb, hs, he]
    simp only [computeCourseProgress]
    rw [if_pos (by omega)]
  · intro cur course topics md asg qz ev hmiss
    rcases hmiss with hmiss | hmiss
    · rw [hb, hmiss]
      rcases parseDate course.semester_end with _ | e <;> rfl
    · rw [hb, hmiss]
      rcases parseDate course.semester_start with _ | s <;> rfl

/-- Witness for C4 at Scenario C's concrete dates. -/
theorem course_progress_spec_witness :
    (buildCourseContext (toOrdinal 2026 3 13)
      { id := 1, name := "C", code := none,
        semester_start := RawDate.str "2026-01-13",
        semester_end := RawDate.str "2026-05-08" } [] [] [] [] []).semester_progress
      = round2 (max 0 (min 1 (((toOrdinal 2026 3 13 - toOrdinal 2026 1 13 : Int) : ℚ)
          / ((toOrdinal 2026 5 8 - toOrdinal 2026 1 13 : Int) : ℚ)))) :=
  course_progress_spec.1 (toOrdinal 2026 3 13)
    { id := 1, name := "C", code := none,
      semester_start := RawDate.str "2026-01-13",
      semester_end := RawDate.str "2026-05-08" } [] [] [] [] []
    (toOrdinal 2026 1 13) (toOrdinal 2026 5 8)
    (by decide) (by decide) (by decide)

/-- A successful quiz candidate with an absent weight field carries the
default weight 10. -/
lemma quizCandidate_default_weight (cur tid : Int) (q : QuizRec) (x : Assessment)
    (hw : q.weight = none) (hc : quizCandidate cur tid q = some x) :
    x.weight = 10 := by
  unfold quizCandidate at hc
  by_cases ht : q.topic_id = some tid
  · rw [if_pos ht] at hc
    rcases hpd : parseDate q.scheduled_date with _ | d <;> rw [hpd] at hc
    · simp at hc
    · have hc' : (if d ≥ cur then
          some (Assessment.mk "quiz" (q.name.getD "Quiz") d (d - cur)
            (q.weight.getD 10))
          else none) = some x := hc
      by_cases hd : d ≥ cur
      · rw [if_pos hd] at hc'
        cases hc'
        rw [hw]
        rfl
      · rw [if_neg hd] at hc'
        simp at hc' 
  · rw [if_neg ht] at hc
    simp at hc

/-- A successful assignment candidate with an absent weight field carries
the default weight 0. -/
lemma assignmentCandidate_default_weight (cur tid : Int) (a : AssignmentRec)
    (x : Assessment) (hw : a.weight = none)
    (hc : assignmentCandidate cur tid a = some x) : x.weight = 0 := by
  unfold assignmentCandidate at hc
  by_cases ht : a.topic_id = some tid
  · rw [if_pos ht] at hc
    rcases hpd : parseDate a.due_date with _ | d <;> rw [hpd] at hc
    · simp at hc
    · have hc' : (if d ≥ cur then
          some (Assessment.mk (a.type.getD "assignment") (a.name.getD "Assignment")
            d (d - cur) (a.weight.getD 0))
          else none) = some x := hc
      by_cases hd : d ≥ cur
      · rw [if_pos hd] at hc'
        cases hc'
        rw [hw]
        rfl
      · rw [if_neg hd] at hc'
        simp at hc' 
  · rw [if_neg ht] at hc
    simp at hc

/-- A successful event candidate with an absent weight field carries the
default weight 0. -/
lemma eventCandidate_default_weight (cur tid : Int) (e : EventRec)
    (x : Assessment) (hw : e.weight = none)
    (hc : eventCandidate cur tid e = some x) : x.weight = 0 := by
  unfold eventCandidate at hc
  by_cases ht : e.topic_id = some tid
  · rw [if_pos ht] at hc
    rcases hpd : parseDate e.due_date with _ | d <;> rw [hpd] at hc
    · simp at hc
    · have hc' : (if d ≥ cur then
          some (Assessment.mk (e.type.getD "event") (e.name.getD "Event")
            d (d - cur) (e.weight.getD 0))
          else none) = some x := hc
      by_cases hd : d ≥ cur
      · rw [if_pos hd] at hc'
        cases hc'
        rw [hw]
        rfl
      · rw [if_neg hd] at hc'
        simp at hc' 
  · rw [if_neg ht] at hc
    simp at hc

/-- C5: in next-assessment resolution, a candidate with no weight field
defaults to weight 10 when it comes from the quizzes list and weight 0
when it comes from the assignments or events lists; consequently
(Scenario F) a weightless quiz 2 days away with mastery 0.3 yields
urgency `high`, not `critical`. -/
theorem default_weight_asymmetry :
    (∀ (current_date topic_id : Int) (q : QuizRec) (x : Assessment),
      q.weight = none → quizCandidate current_date topic_id q = some x →
        x.weight = 10) ∧
    (∀ (current_date topic_id : Int) (a : AssignmentRec) (x : Assessment),
      a.weight = none → assignmentCandidate current_date topic_id a = some x →
        x.weight = 0) ∧
    (∀ (current_date topic_id : Int) (e : EventRec) (x : Assessment),
      e.weight = none → eventCandidate current_date topic_id e = some x →
        x.weight = 0) ∧
    ((buildTopicContext 0
        [{ topic_id := 1, mastery_score := some (3 / 10), last_updated := RawDate.null }]
        [] [{ topic_id := some 1, scheduled_date := RawDate.dt 2, weight := none,
              name := none }] []
        { id := 1, course_id := some 1, name := "T" }).urgency = Urgency.high ∧
      (buildTopicContext 0
        [{ topic_id := 1, mastery_score := some (3 / 10), last_updated := RawDate.null }]
        [] [{ topic_id := some 1, scheduled_date := RawDate.dt 2, weight := none,
              name := none }] []
        { id := 1, course_id := some 1, name := "T" }).urgency ≠ Urgency.critical ∧
      ((buildTopicContext 0
        [{ topic_id := 1, mastery_score := some (3 / 10), last_updated := RawDate.null }]
        [] [{ topic_id := some 1, scheduled_date := RawDate.dt 2, weight := none,
              name := none }] []
        { id := 1, course_id := some 1, name := "T" }).next_assessment).map
          (fun x => x.weight) = some 10) := by
  exact ⟨quizCandidate_default_weight, assignmentCandidate_default_weight,
    eventCandidate_default_weight, by with_unfolding_all decide⟩

/-- Witness for C5: a concrete weightless quiz resolves to weight 10 and a
concrete weightless assignment to weight 0. -/
theorem default_weight_asymmetry_witness :
    (Assessment.mk "quiz" "Quiz" 2 2 10).weight = 10 ∧
    (Assessment.mk "assignment" "Assignment" 2 2 0).weight = 0 :=
  ⟨default_weight_asymmetry.1 0 1
      { topic_id := some 1, scheduled_date := RawDate.dt 2, weight := none, name := none }
      (Assessment.mk "quiz" "Quiz" 2 2 10) rfl (by decide),
    default_weight_asymmetry.2.1 0 1
      { topic_id := some 1, due_date := RawDate.dt 2, weight := none, type := none,
        name := none }
      (Assessment.mk "assignment" "Assignment" 2 2 0) rfl (by decide)⟩

/-- The running fold inside `pyMinBy` returns either its accumulator or a
list element. -/
lemma foldl_min_mem {α : Type} (key : α → Int) (l : List α) (acc : α) :
    l.foldl (fun best y => if key y < key best then y else best) acc = acc ∨
    l.foldl (fun best y => if key y < key best then y else best) acc ∈ l := by
  induction l generalizing acc with
  | nil => exact Or.inl rfl
  | cons z zs ih =>
    simp only [List.foldl_cons]
    rcases ih (if key z < key acc then z else acc) with h | h
    · rw [h]
      by_cases hk : key z < key acc
      · rw [if_pos hk]
        exact Or.inr (List.mem_cons_self _ _)
      · rw [if_neg hk]
        exact Or.inl rfl
    · exact Or.inr (List.mem_cons_of_mem _ h)

/-- Python's `min` returns an element of its list. -/
lemma pyMinBy_mem {α : Type} (key : α → Int) (l : List α) (x : α)
    (h : pyMinBy key l = some x) : x ∈ l := by
  cases l with
  | nil => simp [pyMinBy] at h
  | cons y ys =>
    simp only [pyMinBy, Option.some.injEq] at h
    rcases foldl_min_mem key ys y with h' | h'
    · rw [h'] at h
      rw [← h]
      exact List.mem_cons_self _ _
    · rw [← h]
      exact List.mem_cons_of_mem _ h'

/-- A successful assignment candidate is dated today or later, with a
non-negative day count equal to its distance from the current date. -/
lemma assignmentCandidate_upcoming (cur tid : Int) (a : AssignmentRec)
    (x : Assessment) (hc : assignmentCandidate cur tid a = some x) :
    cur ≤ x.date ∧ x.days_until = x.date - cur := by
  unfold assignmentCandidate at hc
  by_cases ht : a.topic_id = some tid
  · rw [if_pos ht] at hc
    rcases hpd : parseDate a.due_date with _ | d <;> rw [hpd] at hc
    · simp at hc
    · have hc' : (if d ≥ cur then
          some (Assessment.mk (a.type.getD "assignment") (a.name.getD "Assignment")
            d (d - cur) (a.weight.getD 0))
          else none) = some x := hc
      by_cases hd : d ≥ cur
      · rw [if_pos hd] at hc'
        cases hc'
        exact ⟨hd, rfl⟩
      · rw [if_neg hd] at hc'
        simp at hc'
  · rw [if_neg ht] at hc
    simp at hc

/-- A successful quiz candidate is dated today or later. -/
lemma quizCandidate_upcoming (cur tid : Int) (q : QuizRec)
    (x : Assessment) (hc : quizCandidate cur tid q = some x) :
    cur ≤ x.date ∧ x.days_until = x.date - cur := by
  unfold quizCandidate at hc
  by_cases ht : q.topic_id = some tid
  · rw [if_pos ht] at hc
    rcases hpd : parseDate q.scheduled_date with _ | d <;> rw [hpd] at hc
    · simp at hc
    · have hc' : (if d ≥ cur then
          some (Assessment.mk "quiz" (q.name.getD "Quiz") d (d - cur)
            (q.weight.getD 10))
          else none) = some x := hc
      by_cases hd : d ≥ cur
      · rw [if_pos hd] at hc'
        cases hc'
        exact ⟨hd, rfl⟩
      · rw [if_neg hd] at hc'
        simp at hc'
  · rw [if_neg ht] at hc
    simp at hc

/-- A successful event candidate is dated today or later. -/
lemma eventCandidate_upcoming (cur tid : Int) (e : EventRec)
    (x : Assessment) (hc : eventCandidate cur tid e = some x) :
    cur ≤ x.date ∧ x.days_until = x.date - cur := by
  unfold eventCandidate at hc
  by_cases ht : e.topic_id = some tid
  · rw [if_pos ht] at hc
    rcases hpd : parseDate e.due_date with _ | d <;> rw [hpd] at hc
    · simp at hc
    · have hc' : (if d ≥ cur then
          some (Assessment.mk (e.type.getD "event") (e.name.getD "Event")
            d (d - cur) (e.weight.getD 0))
          else none) = some x := hc
      by_cases hd : d ≥ cur
      · rw [if_pos hd] at hc'
        cases hc'
        exact ⟨hd, rfl⟩
      · rw [if_neg hd] at hc'
        simp at hc'
  · rw [if_neg ht] at hc
    simp at hc

/-- Every member of the `upcoming_assessments` list is dated today or
later and has non-negative `days_until`. -/
lemma upcoming_mem_upcoming (cur tid : Int) (assignments : List AssignmentRec)
    (quizzes : List QuizRec) (events : List EventRec) (x : Assessment)
    (hx : x ∈ upcomingAssessments cur tid assignments quizzes events) :
    cur ≤ x.date ∧ 0 ≤ x.days_until := by
  simp only [upcomingAssessments, List.mem_append, List.mem_filterMap] at hx
  rcases hx with (⟨a, _, ha⟩ | ⟨q, _, hq⟩) | ⟨e, _, he⟩
  · have h := assignmentCandidate_upcoming cur tid a x ha
    exact ⟨h.1, by omega⟩
  · have h := quizCandidate_upcoming cur tid q x hq
    exact ⟨h.1, by omega⟩
  · have h := eventCandidate_upcoming cur tid e x he
    exact ⟨h.1, by omega⟩

/-- C6: a resolved next assessment always has `days_until ≥ 0`: every
candidate strictly before the current date is excluded, and a candidate
dated exactly at the current date is included, with `days_until = 0`. -/
theorem next_assessment_upcoming :
    (∀ (current_date topic_id : Int) (assignments : List AssignmentRec)
        (quizzes : List QuizRec) (events : List EventRec) (x : Assessment),
      findNextAssessment current_date topic_id assignments quizzes events = some x →
        0 ≤ x.days_until) ∧
    (∀ (current_date topic_id : Int) (assignments : List AssignmentRec)
        (quizzes : List QuizRec) (events : List EventRec) (x : Assessment),
      x ∈ upcomingAssessments current_date topic_id assignments quizzes events →
        current_date ≤ x.date) ∧
    (∀ (current_date topic_id : Int) (a : AssignmentRec) (d : Int),
      parseDate a.due_date = some d → d < current_date →
        assignmentCandidate current_date topic_id a = none) ∧
    (∀ (current_date topic_id : Int) (q : QuizRec) (d : Int),
      parseDate q.scheduled_date = some d → d < current_date →
        quizCandidate current_date topic_id q = none) ∧
    (∀ (current_date topic_id : Int) (e : EventRec) (d : Int),
      parseDate e.due_date = some d → d < current_date →
        eventCandidate current_date topic_id e = none) ∧
    (∀ (current_date topic_id : Int) (a : AssignmentRec),
      a.topic_id = some topic_id → parseDate a.due_date = some current_date →
        ∃ x, assignmentCandidate current_date topic_id a = some x ∧
          x.days_until = 0) := by
  refine ⟨?_, ?_, ?_, ?_, ?_, ?_⟩
  · intro cur tid asg qz ev x h
    exact (upcoming_mem_upcoming cur tid asg qz ev x
      (pyMinBy_mem _ _ _ h)).2
  · intro cur tid asg qz ev x hx
    exact (upcoming_mem_upcoming cur tid asg qz ev x hx).1
  · intro cur tid a d hp hd
    unfold assignmentCandidate
    by_cases ht : a.topic_id = some tid
    · rw [if_pos ht, hp]
      exact if_neg (by omega)
    · exact if_neg ht
  · intro cur tid q d hp hd
    unfold quizCandidate
    by_cases ht : q.topic_id = some tid
    · rw [if_pos ht, hp]
      exact if_neg (by omega)
    · exact if_neg ht
  · intro cur tid e d hp hd
    unfold eventCandidate
    by_cases ht : e.topic_id = some tid
    · rw [if_pos ht, hp]
      exact if_neg (by omega)
    · exact if_neg ht
  · intro cur tid a ht hp
    refine ⟨Assessment.mk (a.type.getD "assignment") (a.name.getD "Assignment")
      cur (cur - cur) (a.weight.getD 0), ?_, sub_self cur⟩
    unfold assignmentCandidate
    rw [if_pos ht, hp]
    exact if_pos (le_refl cur)

/-- Witness for C6 at a concrete assignment due two days from now. -/
theorem next_assessment_upcoming_witness :
    (0 : Int) ≤ (Assessment.mk "assignment" "Assignment" 2 2 5).days_until :=
  next_assessment_upcoming.1 0 1
    [{ topic_id := some 1, due_date := RawDate.dt 2, weight := some 5,
       type := none, name := none }] [] []
    (Assessment.mk "assignment" "Assignment" 2 2 5) (by decide)

/-- `buildCourseContext` depends on the course record only through its
identity fields and the parsed semester dates. -/
lemma buildCourseContext_congr (current_date : Int) (c1 c2 : CourseRec)
    (topics : List TopicRec) (mastery_data : List MasteryRec)
    (assignments : List AssignmentRec) (quizzes : List QuizRec)
    (events : List EventRec)
    (hid : c1.id = c2.id) (hname : c1.name = c2.name) (hcode : c1.code = c2.code)
    (hs : parseDate c1.semester_start = parseDate c2.semester_start)
    (he : parseDate c1.semester_end = parseDate c2.semester_end) :
    buildCourseContext current_date c1 topics mastery_data assignments quizzes
        events
      = buildCourseContext current_date c2 topics mastery_data assignments
          quizzes events := by
  simp only [buildCourseContext, hid, hname, hcode, hs, he]

/-- Supporting lemma: `parseDate` itself is total into `Option`, and a
string the normalizer cannot parse is treated exactly as an absent date
by course progress and by the three assessment-candidate resolvers.
(The stagnation risk flag is the one consumer that does not — see the C8
theorem below.) -/
theorem malformed_date_as_missing (s : String)
    (hbad : fromisoChars (replaceZ s.toList) = none) :
    parseDate (RawDate.str s) = none ∧
    (∀ (current_date : Int) (course : CourseRec) (topics : List TopicRec)
        (mastery_data : List MasteryRec) (assignments : List AssignmentRec)
        (quizzes : List QuizRec) (events : List EventRec),
      buildCourseContext current_date
          { course with semester_start := RawDate.str s } topics mastery_data
          assignments quizzes events
        = buildCourseContext current_date
            { course with semester_start := RawDate.null } topics mastery_data
            assignments quizzes events) ∧
    (∀ (current_date topic_id : Int) (a : AssignmentRec),
      assignmentCandidate current_date topic_id { a with due_date := RawDate.str s }
        = assignmentCandidate current_date topic_id
            { a with due_date := RawDate.null }) ∧
    (∀ (current_date topic_id : Int) (q : QuizRec),
      quizCandidate current_date topic_id { q with scheduled_date := RawDate.str s }
        = quizCandidate current_date topic_id
            { q with scheduled_date := RawDate.null }) ∧
    (∀ (current_date topic_id : Int) (e : EventRec),
      eventCandidate current_date topic_id { e with due_date := RawDate.str s }
        = eventCandidate current_date topic_id
            { e with due_date := RawDate.null }) := by
  have hps : parseDate (RawDate.str s) = none := by
    show (if s = "" then none else fromisoChars (replaceZ s.toList)) = none
    by_cases hs : s = ""
    · rw [if_pos hs]
    · rw [if_neg hs]
      exact hbad
  have heq : parseDate (RawDate.str s) = parseDate RawDate.null := hps
  refine ⟨hps, ?_, ?_, ?_, ?_⟩
  · intro cur course topics md asg qz ev
    exact buildCourseContext_congr cur _ _ topics md asg qz ev rfl rfl rfl heq rfl
  · intro cur tid a
    unfold assignmentCandidate
    simp only [heq]
  · intro cur tid q
    unfold quizCandidate
    simp only [heq]
  · intro cur tid e
    unfold eventCandidate
    simp only [heq]

/-- The supporting lemma exercised at a concrete malformed date string. -/
theorem malformed_date_as_missing_witness :
    parseDate (RawDate.str "not-a-date") = none :=
  (malformed_date_as_missing "not-a-date" (by decide)).1

/-- C8: the claim's never-raise contract is broken by the code.  A topic
whose mastery record carries a truthy but unparseable `last_updated`
string crashes risk-flag detection: the stagnation check evaluates
`self._parse_date(t['last_updated']).date()` with `_parse_date` returning
`None`, raising `AttributeError` (modelled as `none`), whereas the very
same input with `last_updated` absent is handled and produces the flag
set.  A malformed date string is therefore not treated as a missing one
on this path. -/
theorem malformed_last_updated_crashes :
    detectRiskFlags 0
      [buildCourseContext 0
        { id := 1, name := "C", code := none, semester_start := RawDate.null,
          semester_end := RawDate.null }
        [{ id := 1, course_id := some 1, name := "T" }]
        [{ topic_id := 1, mastery_score := some (9 / 10),
           last_updated := RawDate.str "not-a-date" }] [] [] []] = none ∧
    detectRiskFlags 0
      [buildCourseContext 0
        { id := 1, name := "C", code := none, semester_start := RawDate.null,
          semester_end := RawDate.null }
        [{ id := 1, course_id := some 1, name := "T" }]
        [{ topic_id := 1, mastery_score := some (9 / 10),
           last_updated := RawDate.null }] [] [] []]
      = some { low_mastery_high_weight := false, deadline_pressure := false,
               stagnant_mastery := false, late_semester_low_mastery := false } := by
  with_unfolding_all decide

/-- C9 counterexample: with no topics, the summary-statistics record
carries only four of the five statistics — the `high_urgency_topics` key
is absent, not zero. -/
theorem summary_stats_missing_key_cex :
    (computeSummaryStats []).high_urgency_topics = none ∧
    computeSummaryStats [] ≠
      { total_topics := 0, average_mastery := 0, topics_needing_attention := 0,
        critical_topics := 0, high_urgency_topics := some 0 } := by
  with_unfolding_all decide

/-- C9 (amended): when the input yields no topics at all, the summary
statistics are computed without dividing by zero and contain the four
statistics `total_topics`, `average_mastery`, `topics_needing_attention`
and `critical_topics`, each zero, while the `high_urgency_topics` key is
absent from the no-topics branch. -/
theorem summary_stats_empty (courses_context : List CourseContext)
    (h : ∀ c ∈ courses_context, c.topics = []) :
    computeSummaryStats courses_context =
      { total_topics := 0, average_mastery := 0, topics_needing_attention := 0,
        critical_topics := 0, high_urgency_topics := none } := by
  have hall : courses_context.flatMap (fun c => c.topics) = [] := by
    induction courses_context with
    | nil => rfl
    | cons c cs ih =>
      have hc : c.topics = [] := h c (List.mem_cons_self _ _)
      have hcs := ih (fun c' hc' => h c' (List.mem_cons_of_mem _ hc'))
      simp [List.flatMap_cons, hc, hcs]
  simp only [computeSummaryStats, hall]
  rfl

/-- Witness for C9 (amended) at one concrete course with no topics. -/
theorem summary_stats_empty_witness :
    computeSummaryStats
      [{ course_id := 1, course_name := "C", course_code := "N/A",
         semester_progress := 0, topics := [], risk_level := "moderate",
         average_mastery := 0 }] =
      { total_topics := 0, average_mastery := 0, topics_needing_attention := 0,
        critical_topics := 0, high_urgency_topics := none } :=
  summary_stats_empty
    [{ course_id := 1, course_name := "C", course_code := "N/A",
       semester_progress := 0, topics := [], risk_level := "moderate",
       average_mastery := 0 }] (by decide)

/-- If the minimum key in the tail never beats the accumulator, the fold
keeps the accumulator. -/
lemma foldl_min_keep {α : Type} (key : α → Int) (l : List α) (acc : α)
    (h : ∀ b ∈ l, key acc ≤ key b) :
    l.foldl (fun best y => if key y < key best then y else best) acc = acc := by
  induction l generalizing acc with
  | nil => rfl
  | cons z zs ih =>
    simp only [List.foldl_cons]
    rw [if_neg (not_lt.mpr (h z (List.mem_cons_self _ _)))]
    exact ih acc (fun b hb => h b (List.mem_cons_of_mem _ hb))

/-- Once an element strictly below the accumulator and everything before
it is reached, the fold returns the first such minimal element. -/
lemma foldl_min_first {α : Type} (key : α → Int) (l1 l2 : List α) (acc a : α)
    (hacc : key a < key acc) (h1 : ∀ b ∈ l1, key a < key b)
    (h2 : ∀ b ∈ l2, key a ≤ key b) :
    (l1 ++ a :: l2).foldl (fun best y => if key y < key best then y else best) acc
      = a := by
  induction l1 generalizing acc with
  | nil =>
    simp only [List.nil_append, List.foldl_cons]
    rw [if_pos hacc]
    exact foldl_min_keep key l2 a h2
  | cons z zs ih =>
    simp only [List.cons_append, List.foldl_cons]
    by_cases hz : key z < key acc
    · rw [if_pos hz]
      exact ih z (h1 z (List.mem_cons_self _ _))
        (fun b hb => h1 b (List.mem_cons_of_mem _ hb))
    · rw [if_neg hz]
      exact ih acc hacc (fun b hb => h1 b (List.mem_cons_of_mem _ hb))

/-- C10: when the upcoming-assessment list decomposes around a candidate
`a` with all earlier candidates strictly farther away and all later
candidates no nearer, next-assessment resolution returns exactly `a` —
i.e. the first minimal candidate in scan order (matching assignments in
input order, then quizzes, then events). -/
theorem tie_break_first_in_scan_order (current_date topic_id : Int)
    (assignments : List AssignmentRec) (quizzes : List QuizRec)
    (events : List EventRec) (l1 l2 : List Assessment) (a : Assessment)
    (hdec : upcomingAssessments current_date topic_id assignments quizzes events
      = l1 ++ a :: l2)
    (h1 : ∀ b ∈ l1, a.days_until < b.days_until)
    (h2 : ∀ b ∈ l2, a.days_until ≤ b.days_until) :
    findNextAssessment current_date topic_id assignments quizzes events
      = some a := by
  unfold findNextAssessment
  rw [hdec]
  cases l1 with
  | nil =>
    simp only [List.nil_append, pyMinBy]
    rw [foldl_min_keep (fun x => x.days_until) l2 a h2]
  | cons z zs =>
    simp only [List.cons_append, pyMinBy, Option.some.injEq]
    exact foldl_min_first (fun x => x.days_until) zs l2 z a
      (h1 z (List.mem_cons_self _ _))
      (fun b hb => h1 b (List.mem_cons_of_mem _ hb)) h2

/-- Witness for C10: an assignment and a quiz tie at two days out; the
assignment, scanned first, wins. -/
theorem tie_break_first_in_scan_order_witness :
    findNextAssessment 0 1
      [{ topic_id := some 1, due_date := RawDate.dt 2, weight := some 5,
         type := none, name := none }]
      [{ topic_id := some 1, scheduled_date := RawDate.dt 2, weight := none,
         name := none }] []
      = some (Assessment.mk "assignment" "Assignment" 2 2 5) :=
  tie_break_first_in_scan_order 0 1
    [{ topic_id := some 1, due_date := RawDate.dt 2, weight := some 5,
       type := none, name := none }]
    [{ topic_id := some 1, scheduled_date := RawDate.dt 2, weight := none,
       name := none }] []
    [] [Assessment.mk "quiz" "Quiz" 2 2 10]
    (Assessment.mk "assignment" "Assignment" 2 2 5)
    (by decide) (by decide) (by decide)

end MasteryContext
